import Mathlib

/-!
Verification development for the RenderScene module of the engine
(scene entity bookkeeping, packed-array mirroring, and the three-tier
raycast pipeline).  The geometry toolkit (rayAABB, rayTriangle, matrix
transforms) is an external collaborator of this module; it is represented
by the distances it returns for the fixed query ray, as exact rationals.
Distances that may be unbounded are extended rationals with a top element
standing for the JavaScript Infinity.
-/

/-- Extended distances: rational distances plus an Infinity element. -/
abbrev DistQ : Type := WithTop ℚ

/-- Layer bit stripped from the mask before the per-model layer test.
Modelled from the spec: the Layers enum (scene-graph layers) is not under
src; the ignore-raycast layer is the single bit 1 <<< 20. -/
def IGNORE_RAYCAST : Nat := 2 ^ 20

/-- Default 3D layer bit. Modelled from the spec: the Layers enum is not
under src; DEFAULT is the single bit 1 <<< 30. -/
def DEFAULT_LAYER : Nat := 2 ^ 30

/-- Default UI layer bit. Modelled from the spec: the Layers enum is not
under src; UI_2D is the single bit 1 <<< 25. -/
def UI_2D_LAYER : Nat := 2 ^ 25

/-- JavaScript mask & ~IGNORE_RAYCAST on 32-bit integers: clear the
ignore-raycast bit from the supplied mask. -/
def maskNoIR (mask : Nat) : Nat := mask &&& ((2 ^ 32 - 1) ^^^ IGNORE_RAYCAST)

/-- Primitive topologies inspected by narrowphase (all remaining gfx
topologies fall through without testing any triangle). -/
inductive PrimitiveMode where
  | TRIANGLE_LIST
  | TRIANGLE_STRIP
  | TRIANGLE_FAN
  | OTHER
deriving DecidableEq

/-- Triangles of a TRIANGLE_LIST index buffer: consecutive index triples.
An incomplete trailing pair reads past the buffer in the source and cannot
produce a finite positive distance; it is dropped here. -/
def listTris : List Nat → List (Nat × Nat × Nat)
  | a :: b :: c :: rest => (a, b, c) :: listTris rest
  | _ => []

/-- Triangles of a TRIANGLE_STRIP index buffer.  The source keeps a register
rev alternating between 0 and -1 (rev = ~rev each step) and reads
ib[j - rev], ib[j + rev + 1], ib[j + 2]; so even steps read
(ib[j], ib[j+1], ib[j+2]) and odd steps read (ib[j+1], ib[j], ib[j+2]). -/
def stripTris (ib : List Nat) : List (Nat × Nat × Nat) :=
  (List.range (ib.length - 2)).map fun j =>
    if j % 2 = 0 then (ib.getD j 0, ib.getD (j + 1) 0, ib.getD (j + 2) 0)
    else (ib.getD (j + 1) 0, ib.getD j 0, ib.getD (j + 2) 0)

/-- Triangles of a TRIANGLE_FAN index buffer: ib[0] is the shared apex and
the remaining indices are swept pairwise. -/
def fanTris (ib : List Nat) : List (Nat × Nat × Nat) :=
  match ib with
  | [] => []
  | a :: _ => (List.range (ib.length - 2)).map fun k =>
      (a, ib.getD (k + 1) 0, ib.getD (k + 2) 0)

/-- Topology dispatch of narrowphase. -/
def extractTris (pm : PrimitiveMode) (ib : List Nat) : List (Nat × Nat × Nat) :=
  match pm with
  | .TRIANGLE_LIST => listTris ib
  | .TRIANGLE_STRIP => stripTris ib
  | .TRIANGLE_FAN => fanTris ib
  | .OTHER => []

/-- One narrowphase update: a candidate distance that is nonpositive or not
strictly below the running best is discarded, otherwise it becomes the best. -/
def narrowStep (nd : DistQ) (dist : ℚ) : DistQ :=
  if dist ≤ 0 ∨ nd ≤ (dist : DistQ) then nd else (dist : DistQ)

/-- narrowphase: fold the ray-triangle distances of the extracted triangles,
starting from the caller's max distance.  The vertex buffer, the double-sided
flag and the module-level local ray are summarized by f, the rayTriangle
oracle on the three vertex indices of a triangle. -/
def narrowphase (f : Nat → Nat → Nat → ℚ) (ib : List Nat) (pm : PrimitiveMode)
    (distance : DistQ) : DistQ :=
  ((extractTris pm ib).map fun t => f t.1 t.2.1 t.2.2).foldl narrowStep distance

/-- Least element of a list of extended distances (top for the empty list). -/
def listMin (l : List DistQ) : DistQ := l.foldr min ⊤

/-- Least strictly positive entry of a list of rational distances. -/
def posMinD (l : List ℚ) : DistQ :=
  listMin ((l.filter fun q => 0 < q).map fun q => (q : DistQ))

/-- Scale a local-space distance to world units; Infinity stays Infinity.
Matches the JavaScript narrowDis * scaleLen product for finite values and for
positive scale factors (Infinity * 0 is NaN in JavaScript; it cannot arise
under the finite caps and positive scales used below). -/
def scaleDist (d : DistQ) (s : ℚ) : DistQ := d.map fun q => q * s

/-- Model type tag: DEFAULT models get triangle-level narrowphase, every
other renderable type keeps its broad-phase AABB distance. -/
inductive ModelType where
  | DEFAULT
  | OTHER
deriving DecidableEq

/-- Geometric surface of one sub-mesh when geometricInfo is present: the
index buffer, the topology, and the rayTriangle oracle on vertex indices
(the positions buffer and the double-sided flag applied to the model-space
ray are folded into the oracle). -/
structure SubMeshGeom where
  ib : List Nat
  pm : PrimitiveMode
  triDist : Nat → Nat → Nat → ℚ

/-- One model as seen by the raycast loop, with the geometry collaborators
specialized to the query ray: worldBounds carries the rayAABB broad-phase
distance when bounds exist, and scale is the length of the model-space ray
direction multiplied componentwise by the world scale (the factor the source
uses to convert narrowphase distances back to world units). -/
structure Model where
  nodeId : Nat
  nodeLayer : Nat
  hasTransform : Bool
  enabled : Bool
  worldBounds : Option ℚ
  mtype : ModelType
  subModels : List (Option SubMeshGeom)
  scale : ℚ

/-- Per-sub-model step of the raycast narrow phase: sub-models without
geometricInfo are skipped, otherwise the scaled narrowphase best is folded
into the running minimum d (initialized to Infinity by the caller). -/
def subStep (cap : DistQ) (s : ℚ) (d : DistQ) (sm : Option SubMeshGeom) : DistQ :=
  match sm with
  | none => d
  | some g => min d (scaleDist (narrowphase g.triDist g.ib g.pm cap) s)

/-- Distance d of one model after the type dispatch: DEFAULT models fold the
scaled narrowphase over their sub-models starting from Infinity, every other
type keeps the broad-phase distance. -/
def modelDist (cap : DistQ) (m : Model) (bd : ℚ) : DistQ :=
  match m.mtype with
  | ModelType.DEFAULT => m.subModels.foldl (subStep cap m.scale) ⊤
  | ModelType.OTHER => (bd : DistQ)

/-- Per-model body shared verbatim by raycastAllModels and
raycastSingleModel: the transform/enabled/layer/bounds filter, the rayAABB
broad phase against the cap, the narrow phase for DEFAULT models, and the
final cap comparison. Returns the recorded (node, distance) entry, if any. -/
def modelStep (mask : Nat) (cap : DistQ) (m : Model) : Option (Nat × DistQ) :=
  if m.hasTransform = false then none
  else if m.enabled = false then none
  else if m.nodeLayer &&& maskNoIR mask = 0 then none
  else
    match m.worldBounds with
    | none => none
    | some bd =>
      if bd ≤ 0 then none
      else if cap ≤ (bd : DistQ) then none
      else if modelDist cap m bd < cap then some (m.nodeId, modelDist cap m bd)
      else none

/-- raycastAllModels: iterate the scene's model list in order and collect the
per-model records into the (freshly reset) result pool. -/
def raycastAllModels (mask : Nat) (cap : DistQ) (models : List Model) :
    List (Nat × DistQ) :=
  models.filterMap (modelStep mask cap)

/-- Diagnostic logged by raycastSingleModel in PREVIEW builds for a null
model argument. -/
def nullModelMsg : String := "model must not be null"

/-- raycastSingleModel: in PREVIEW builds a null model logs a diagnostic;
the following unconditional m.transform property access then throws a
TypeError on the null model (modelled as Except.error). For a non-null model
the algorithm is exactly modelStep. Returns the log lines together with
either the thrown error or the recorded results. -/
def raycastSingleModel (preview : Bool) (mask : Nat) (cap : DistQ)
    (model : Option Model) : List String × Except Unit (List (Nat × DistQ)) :=
  let log : List String :=
    if preview then (if model.isNone then [nullModelMsg] else []) else []
  match model with
  | none => (log, Except.error ())
  | some m => (log, Except.ok (modelStep mask cap m).toList)

/-- Local ray-triangle distances of one sub-mesh with geometry. -/
def triDists (g : SubMeshGeom) : List ℚ :=
  (extractTris g.pm g.ib).map fun t => g.triDist t.1 t.2.1 t.2.2

/-- All local ray-triangle distances of a model, across the sub-meshes that
carry geometricInfo. -/
def modelTris (m : Model) : List ℚ :=
  ((m.subModels.filterMap id).map triDists).flatten

/-- One UI node as seen by raycastAllCanvas: uiTransform carries the rayAABB
distance of the node's computed bounding box when a UI transform exists. -/
structure UINode where
  nodeId : Nat
  layer : Nat
  uiTransform : Option ℚ
deriving DecidableEq

/-- raycastUI2DNode test of one node: skip when there is no UI transform,
when the layer carries the ignore-raycast bit, or when the layer misses the
mask; then record the AABB distance when it is positive and below the cap. -/
def raycastUI2DNode (mask : Nat) (cap : DistQ) (n : UINode) : Option (Nat × DistQ) :=
  match n.uiTransform with
  | none => none
  | some d =>
    if n.layer &&& IGNORE_RAYCAST ≠ 0 ∨ n.layer &&& mask = 0 then none
    else if d ≤ 0 then none
    else if (d : DistQ) < cap then some (n.nodeId, d) else none

/-- UI node tree: a node, its active flag, and its children. -/
inductive UITree where
  | node (n : UINode) (active : Bool) (children : List UITree)

def UITree.activeFlag : UITree → Bool
  | .node _ a _ => a

mutual

/-- raycastUI2DNodeRecursiveChildren: test the node itself, then walk each
active child subtree. -/
def recNodeUI (mask : Nat) (cap : DistQ) : UITree → List (Nat × DistQ)
  | .node n _ cs => (raycastUI2DNode mask cap n).toList ++ recListUI mask cap cs

/-- Child loop of the recursive UI walk (also the canvas-root loop of
raycastAllCanvas): only active subtrees are entered. -/
def recListUI (mask : Nat) (cap : DistQ) : List UITree → List (Nat × DistQ)
  | [] => []
  | t :: ts => (if t.activeFlag then recNodeUI mask cap t else []) ++ recListUI mask cap ts

end

/-- raycastAllCanvas over the canvas roots of the current scene: each active
root is walked recursively. -/
def raycastAllCanvas (mask : Nat) (cap : DistQ) (roots : List UITree) :
    List (Nat × DistQ) :=
  recListUI mask cap roots

mutual

/-- Nodes whose raycastUI2DNode test runs during the recursive walk. -/
def visitNodeUI : UITree → List UINode
  | .node n _ cs => n :: visitListUI cs

/-- Nodes visited across a list of subtrees (active ones only). -/
def visitListUI : List UITree → List UINode
  | [] => []
  | t :: ts => (if t.activeFlag then visitNodeUI t else []) ++ visitListUI ts

end

namespace Sync

/-- Scene entity for the synchronization claims: its identity and its pool
handle. -/
structure Entity where
  eid : Nat
  handle : Nat
deriving DecidableEq

/-- The scene's logical lists together with the packed handle arrays that
mirror them. Modelled from the spec: the packed stores (ModelArrayPool and
LightArrayPool of memory-pools) are not under src; push appends one entry
and erase removes the entry at an index, shifting later entries down. -/
structure SceneLists where
  models : List Entity
  modelArr : List Nat
  sphereLights : List Entity
  sphereArr : List Nat
  spotLights : List Entity
  spotArr : List Nat
deriving DecidableEq

def emptyScene : SceneLists := ⟨[], [], [], [], [], []⟩

/-- addModel: attach, push onto the logical list, push the handle onto the
packed array. -/
def addModel (s : SceneLists) (m : Entity) : SceneLists :=
  { s with models := s.models ++ [m], modelArr := s.modelArr ++ [m.handle] }

/-- removeModel: linear search by reference equality; on the first match,
splice the logical index and erase the same index from the packed array. -/
def removeModel (s : SceneLists) (m : Entity) : SceneLists :=
  match s.models.findIdx? (fun x => x == m) with
  | none => s
  | some i => { s with models := s.models.eraseIdx i, modelArr := s.modelArr.eraseIdx i }

def addSphereLight (s : SceneLists) (l : Entity) : SceneLists :=
  { s with sphereLights := s.sphereLights ++ [l], sphereArr := s.sphereArr ++ [l.handle] }

def removeSphereLight (s : SceneLists) (l : Entity) : SceneLists :=
  match s.sphereLights.findIdx? (fun x => x == l) with
  | none => s
  | some i =>
    { s with sphereLights := s.sphereLights.eraseIdx i, sphereArr := s.sphereArr.eraseIdx i }

def addSpotLight (s : SceneLists) (l : Entity) : SceneLists :=
  { s with spotLights := s.spotLights ++ [l], spotArr := s.spotArr ++ [l.handle] }

def removeSpotLight (s : SceneLists) (l : Entity) : SceneLists :=
  match s.spotLights.findIdx? (fun x => x == l) with
  | none => s
  | some i =>
    { s with spotLights := s.spotLights.eraseIdx i, spotArr := s.spotArr.eraseIdx i }

inductive Op where
  | addModel (m : Entity)
  | removeModel (m : Entity)
  | addSphereLight (l : Entity)
  | removeSphereLight (l : Entity)
  | addSpotLight (l : Entity)
  | removeSpotLight (l : Entity)

def applyOp (s : SceneLists) : Op → SceneLists
  | .addModel m => addModel s m
  | .removeModel m => removeModel s m
  | .addSphereLight l => addSphereLight s l
  | .removeSphereLight l => removeSphereLight s l
  | .addSpotLight l => addSpotLight s l
  | .removeSpotLight l => removeSpotLight s l

def applyOps (s : SceneLists) (ops : List Op) : SceneLists := ops.foldl applyOp s

/-- Lock-step invariant: each packed array is exactly the handle image of its
logical list (same logical length, same entity at every index). -/
def inSync (s : SceneLists) : Prop :=
  s.modelArr = s.models.map Entity.handle ∧
  s.sphereArr = s.sphereLights.map Entity.handle ∧
  s.spotArr = s.spotLights.map Entity.handle

end Sync

namespace DL

/-- TransformBit.ROTATION dirty bit. Modelled from the spec: node-enum is not
under src; ROTATION is the bit 1 <<< 1. -/
def ROTATION : Nat := 2

/-- Directional light: its identity and, when a node is attached, the node's
hasChangedFlags word. -/
structure DirLight where
  lid : Nat
  node : Option Nat
deriving DecidableEq

/-- Directional-light list plus the mainLight alias (stored as the aliased
light's identity; null when unset). -/
structure DLState where
  directionalLights : List DirLight
  mainLight : Option Nat
deriving DecidableEq

/-- node.hasChangedFlags |= TransformBit.ROTATION, when a node is present. -/
def markDirty (l : DirLight) : DirLight :=
  { l with node := l.node.map fun f => f ||| ROTATION }

/-- setMainLight replaces the main light unconditionally. -/
def setMainLight (s : DLState) (dl : DirLight) : DLState :=
  { s with mainLight := some dl.lid }

/-- unsetMainLight: only acts when dl is the current main light; falls back
to the last entry of the current directional-light list (marking that
light's node rotation-dirty) or to null when the list is empty. -/
def unsetMainLight (s : DLState) (dl : DirLight) : DLState :=
  if s.mainLight = some dl.lid then
    if s.directionalLights.length ≠ 0 then
      { s with
          mainLight :=
            some (s.directionalLights.getD (s.directionalLights.length - 1) ⟨0, none⟩).lid,
          directionalLights :=
            s.directionalLights.set (s.directionalLights.length - 1)
              (markDirty (s.directionalLights.getD (s.directionalLights.length - 1) ⟨0, none⟩)) }
    else { s with mainLight := none }
  else s

def addDirectionalLight (s : DLState) (dl : DirLight) : DLState :=
  { s with directionalLights := s.directionalLights ++ [dl] }

/-- removeFirst p l: the source's find-by-reference-then-splice loop. -/
def removeFirst {α : Type} (p : α → Bool) : List α → List α
  | [] => []
  | x :: xs => if p x then xs else x :: removeFirst p xs

def removeDirectionalLight (s : DLState) (dl : DirLight) : DLState :=
  { s with directionalLights := removeFirst (fun x => x == dl) s.directionalLights }

inductive DLOp where
  | set (dl : DirLight)
  | unset (dl : DirLight)
  | add (dl : DirLight)
  | remove (dl : DirLight)

def applyDLOp (s : DLState) : DLOp → DLState
  | .set dl => setMainLight s dl
  | .unset dl => unsetMainLight s dl
  | .add dl => addDirectionalLight s dl
  | .remove dl => removeDirectionalLight s dl

def applyDLOps (s : DLState) (ops : List DLOp) : DLState := ops.foldl applyDLOp s

/-- Main-light invariant: mainLight is null or aliases a light currently in
the directional-light list. -/
def mainLightOk (s : DLState) : Bool :=
  match s.mainLight with
  | none => true
  | some i => s.directionalLights.any fun x => x.lid == i

/-- Call-site discipline under which the invariant is preserved: setMainLight
is only called with a light currently in the list, and
removeDirectionalLight is never called on the current main light. -/
def okOp (s : DLState) : DLOp → Bool
  | .set dl => s.directionalLights.any fun x => x.lid == dl.lid
  | .remove dl => !(s.mainLight == some dl.lid)
  | _ => true

def okOps : DLState → List DLOp → Bool
  | _, [] => true
  | s, op :: rest => okOp s op && okOps (applyDLOp s op) rest

end DL

namespace Destroy

/-- Observable scene state for destroy: the owned entity lists (by id), the
four pool handles (0 is the NULL_HANDLE sentinel; modelled from the spec:
memory-pools is not under src), plus the logs of detachFromScene calls and
of pool free calls. The packed-array contents themselves are covered by the
Sync section. -/
structure SceneRes where
  cameras : List Nat
  directionalLights : List Nat
  sphereLights : List Nat
  spotLights : List Nat
  models : List Nat
  modelArrayHandle : Nat
  scenePoolHandle : Nat
  sphereLightsHandle : Nat
  spotLightsHandle : Nat
  detached : List Nat
  freed : List Nat
deriving DecidableEq

def removeCameras (s : SceneRes) : SceneRes :=
  { s with cameras := [], detached := s.detached ++ s.cameras }

def removeSphereLights (s : SceneRes) : SceneRes :=
  { s with sphereLights := [], detached := s.detached ++ s.sphereLights }

def removeSpotLights (s : SceneRes) : SceneRes :=
  { s with spotLights := [], detached := s.detached ++ s.spotLights }

def removeModels (s : SceneRes) : SceneRes :=
  { s with models := [], detached := s.detached ++ s.models }

/-- Pool free under the null-handle guard: the free is logged only for a
non-sentinel handle (free on the sentinel is a no-op; modelled from the
spec). -/
def freeLog (h : Nat) (freed : List Nat) : List Nat :=
  if h ≠ 0 then freed ++ [h] else freed

/-- destroy: remove cameras, sphere lights, spot lights and models (the
source has no removal call for the directional-light list), then free the
four handles in source order under the null guard and null them. -/
def destroy (s : SceneRes) : SceneRes :=
  let s1 := removeModels (removeSpotLights (removeSphereLights (removeCameras s)))
  { s1 with
      freed := freeLog s1.spotLightsHandle
                 (freeLog s1.sphereLightsHandle
                   (freeLog s1.scenePoolHandle (freeLog s1.modelArrayHandle s1.freed))),
      modelArrayHandle := 0, scenePoolHandle := 0,
      sphereLightsHandle := 0, spotLightsHandle := 0 }

end Destroy

/-- Witness model with two triangles at local distances 2 and 5 (scale 1). -/
def mWitnessA : Model :=
  { nodeId := 1, nodeLayer := DEFAULT_LAYER, hasTransform := true, enabled := true,
    worldBounds := some 1, mtype := ModelType.DEFAULT,
    subModels := [some { ib := [0, 1, 2, 3, 4, 5], pm := PrimitiveMode.TRIANGLE_LIST,
                         triDist := fun i _ _ => if i = 0 then 2 else 5 }],
    scale := 1 }

/-- Witness model with a single triangle at distance 10 (scale 1). -/
def mWitnessB : Model :=
  { nodeId := 2, nodeLayer := DEFAULT_LAYER, hasTransform := true, enabled := true,
    worldBounds := some 1, mtype := ModelType.DEFAULT,
    subModels := [some { ib := [0, 1, 2], pm := PrimitiveMode.TRIANGLE_LIST,
                         triDist := fun _ _ _ => 10 }],
    scale := 1 }

/-- Model passing every filter whose single geometric sub-mesh has no
triangle at all, with world-scale factor 1/2 along the ray. -/
def mPhantomA : Model :=
  { nodeId := 1, nodeLayer := DEFAULT_LAYER, hasTransform := true, enabled := true,
    worldBounds := some 1, mtype := ModelType.DEFAULT,
    subModels := [some { ib := [], pm := PrimitiveMode.TRIANGLE_LIST,
                         triDist := fun _ _ _ => 0 }],
    scale := 1 / 2 }

/-- Model passing every filter whose triangles all miss (rayTriangle returns
0 for every triangle), with world-scale factor 1/2 along the ray. -/
def mPhantomB : Model :=
  { nodeId := 2, nodeLayer := DEFAULT_LAYER, hasTransform := true, enabled := true,
    worldBounds := some 1, mtype := ModelType.DEFAULT,
    subModels := [some { ib := [0, 1, 2], pm := PrimitiveMode.TRIANGLE_LIST,
                         triDist := fun _ _ _ => 0 }],
    scale := 1 / 2 }

/-- Model on the default layer that also carries the ignore-raycast bit. -/
def mCarriesIR : Model :=
  { nodeId := 3, nodeLayer := DEFAULT_LAYER ||| IGNORE_RAYCAST, hasTransform := true,
    enabled := true, worldBounds := some 3, mtype := ModelType.OTHER,
    subModels := [], scale := 1 }

/-- Non-DEFAULT witness model with broad-phase distance 3. -/
def mOther : Model :=
  { nodeId := 4, nodeLayer := DEFAULT_LAYER, hasTransform := true, enabled := true,
    worldBounds := some 3, mtype := ModelType.OTHER, subModels := [], scale := 1 }

theorem listMin_nil : listMin [] = ⊤ := rfl

theorem listMin_cons (a : DistQ) (l : List DistQ) : listMin (a :: l) = min a (listMin l) := rfl

theorem posMinD_nil : posMinD [] = ⊤ := rfl

theorem posMinD_cons (q : ℚ) (l : List ℚ) :
    posMinD (q :: l) = if 0 < q then min (q : DistQ) (posMinD l) else posMinD l := by
  by_cases h : 0 < q <;> simp [posMinD, List.filter_cons, h, listMin]

theorem minTopR (c : DistQ) : min c ⊤ = c := min_eq_left le_top

theorem narrow_foldl : ∀ (l : List ℚ) (c : DistQ), l.foldl narrowStep c = min c (posMinD l)
  | [], c => by simp [posMinD_nil, minTopR]
  | q :: l, c => by
    rw [List.foldl_cons, narrow_foldl l, posMinD_cons]
    by_cases hq : 0 < q
    · have hstep : narrowStep c q = min c (q : DistQ) := by
        unfold narrowStep
        have hq0 : ¬ q ≤ 0 := not_le.mpr hq
        by_cases hc : c ≤ (q : DistQ) <;> simp [hq0, hc, min_def]
      rw [hstep]
      simp [hq, min_assoc]
    · have hstep : narrowStep c q = c := by
        unfold narrowStep
        simp [le_of_not_lt hq]
      rw [hstep]
      simp [hq]

/-- C5: for TRIANGLE_STRIP with an index buffer of length n >= 3, narrowphase
tests exactly the n - 2 sliding windows, window j read as
(ib[j], ib[j+1], ib[j+2]) for even j and as (ib[j+1], ib[j], ib[j+2]) for odd
j, each window folded into the running best exactly once. -/
theorem strip_sliding_windows (ib : List Nat) (h : 3 ≤ ib.length) :
    (extractTris PrimitiveMode.TRIANGLE_STRIP ib).length = ib.length - 2 ∧
    (∀ j, j < ib.length - 2 →
      (extractTris PrimitiveMode.TRIANGLE_STRIP ib).getD j (0, 0, 0) =
        if j % 2 = 0 then (ib.getD j 0, ib.getD (j + 1) 0, ib.getD (j + 2) 0)
        else (ib.getD (j + 1) 0, ib.getD j 0, ib.getD (j + 2) 0)) ∧
    (∀ (f : Nat → Nat → Nat → ℚ) (cap : DistQ),
      narrowphase f ib PrimitiveMode.TRIANGLE_STRIP cap =
        ((stripTris ib).map fun t => f t.1 t.2.1 t.2.2).foldl narrowStep cap) := by
  refine ⟨by simp [extractTris, stripTris], ?_, fun f cap => rfl⟩
  intro j hj
  simp [extractTris, stripTris, List.getD, List.getElem?_map, List.getElem?_range, hj]

theorem strip_sliding_windows_check :
    (extractTris PrimitiveMode.TRIANGLE_STRIP [0, 1, 2, 3]).getD 1 (0, 0, 0) = (2, 1, 3) := by
  have h := strip_sliding_windows [0, 1, 2, 3] (by decide)
  have h1 := h.2.1 1 (by decide)
  simpa using h1

theorem minTopL (c : DistQ) : min ⊤ c = c := min_eq_right le_top

theorem posMinD_append : ∀ (l1 l2 : List ℚ),
    posMinD (l1 ++ l2) = min (posMinD l1) (posMinD l2)
  | [], l2 => by simp [posMinD_nil, minTopL]
  | q :: l1, l2 => by
    rw [List.cons_append, posMinD_cons, posMinD_cons, posMinD_append l1 l2]
    by_cases h : 0 < q <;> simp [h, min_assoc]

theorem posMinD_flatten : ∀ (L : List (List ℚ)),
    posMinD L.flatten = listMin (L.map posMinD)
  | [] => rfl
  | l :: L => by
    rw [List.flatten_cons, posMinD_append, posMinD_flatten L, List.map_cons, listMin_cons]

theorem scaleDist_top (s : ℚ) : scaleDist ⊤ s = ⊤ := rfl

theorem scaleDist_coe (q s : ℚ) : scaleDist (q : DistQ) s = ((q * s : ℚ) : DistQ) := rfl

theorem scaleDist_min (a b : DistQ) (s : ℚ) (hs : 0 ≤ s) :
    scaleDist (min a b) s = min (scaleDist a s) (scaleDist b s) := by
  induction a using WithTop.recTopCoe with
  | top => rw [minTopL, scaleDist_top, minTopL]
  | coe qa =>
    induction b using WithTop.recTopCoe with
    | top => rw [minTopR, scaleDist_top, minTopR]
    | coe qb =>
      have hab : min ((qa : DistQ)) ((qb : DistQ)) = ((min qa qb : ℚ) : DistQ) :=
        (WithTop.coe_min qa qb).symm
      rw [hab, scaleDist_coe, scaleDist_coe, scaleDist_coe]
      rcases le_total qa qb with h | h
      · rw [min_eq_left h, min_eq_left]
        exact WithTop.coe_le_coe.mpr (mul_le_mul_of_nonneg_right h hs)
      · rw [min_eq_right h, min_eq_right]
        exact WithTop.coe_le_coe.mpr (mul_le_mul_of_nonneg_right h hs)

theorem scaleDist_posMinD (s : ℚ) (hs : 0 < s) : ∀ (l : List ℚ),
    scaleDist (posMinD l) s = posMinD (l.map fun q => q * s)
  | [] => rfl
  | q :: l => by
    rw [List.map_cons, posMinD_cons, posMinD_cons]
    by_cases h : 0 < q
    · have h2 : 0 < q * s := mul_pos h hs
      rw [if_pos h, if_pos h2, scaleDist_min _ _ _ (le_of_lt hs),
        scaleDist_posMinD s hs l, scaleDist_coe]
    · have h2 : ¬ 0 < q * s := by
        have hq : q ≤ 0 := le_of_not_lt h
        intro hqs
        nlinarith
      rw [if_neg h, if_neg h2, scaleDist_posMinD s hs l]

theorem le_scaleDist (cap : DistQ) (s : ℚ) (h0 : 0 ≤ cap) (h1 : 1 ≤ s) :
    cap ≤ scaleDist cap s := by
  induction cap using WithTop.recTopCoe with
  | top => exact le_refl _
  | coe q =>
    rw [scaleDist_coe]
    have hq : (0 : ℚ) ≤ q := by
      rw [← WithTop.coe_zero] at h0
      exact WithTop.coe_le_coe.mp h0
    exact WithTop.coe_le_coe.mpr (le_mul_of_one_le_right hq h1)

theorem subFold : ∀ (sms : List (Option SubMeshGeom)) (cap : DistQ) (s : ℚ) (c : DistQ),
    sms.foldl (subStep cap s) c =
      min c (listMin ((sms.filterMap id).map fun g =>
        scaleDist (narrowphase g.triDist g.ib g.pm cap) s))
  | [], cap, s, c => by simp [listMin_nil, minTopR]
  | none :: sms, cap, s, c => by
    rw [List.foldl_cons]
    have hstep : subStep cap s c none = c := rfl
    rw [hstep, subFold sms]
    simp [List.filterMap_cons]
  | some g :: sms, cap, s, c => by
    rw [List.foldl_cons]
    have hstep : subStep cap s c (some g) =
        min c (scaleDist (narrowphase g.triDist g.ib g.pm cap) s) := rfl
    rw [hstep, subFold sms]
    simp [List.filterMap_cons, listMin_cons, min_assoc]

theorem fold_min_cap (A cap : DistQ) (hA : cap ≤ A) : ∀ (ps : List DistQ),
    (listMin (ps.map fun p => min A p) < cap ↔ listMin ps < cap) ∧
    (listMin ps < cap → listMin (ps.map fun p => min A p) = listMin ps)
  | [] => by simp [listMin_nil]
  | p :: ps => by
    have ih := fold_min_cap A cap hA ps
    have hAnot : ¬ A < cap := not_lt.mpr hA
    constructor
    · simp only [List.map_cons, listMin_cons, min_lt_iff, ih.1]
      tauto
    · intro h
      rw [List.map_cons, listMin_cons, listMin_cons]
      rw [listMin_cons, min_lt_iff] at h
      by_cases hp : p < cap
      · have hpA : min A p = p :=
          min_eq_right (le_of_lt (lt_of_lt_of_le hp hA))
        rw [hpA]
        by_cases hX : listMin ps < cap
        · rw [ih.2 hX]
        · have hXm : ¬ listMin (ps.map fun p => min A p) < cap := by
            rw [ih.1]; exact hX
          rw [min_eq_left (le_of_lt (lt_of_lt_of_le hp (not_lt.mp hXm))),
            min_eq_left (le_of_lt (lt_of_lt_of_le hp (not_lt.mp hX)))]
      · have hX : listMin ps < cap := by tauto
        have hmap : listMin (ps.map fun p => min A p) = listMin ps := ih.2 hX
        rw [hmap]
        have hcapAp : cap ≤ min A p := le_min hA (not_lt.mp hp)
        rw [min_eq_right (le_of_lt (lt_of_lt_of_le hX hcapAp)),
          min_eq_right (le_of_lt (lt_of_lt_of_le hX (not_lt.mp hp)))]

theorem modelStep_default_eq (mask : Nat) (cap : DistQ) (m : Model)
    (h1 : m.hasTransform = true) (h2 : m.enabled = true)
    (h3 : ¬ m.nodeLayer &&& maskNoIR mask = 0) (bd : ℚ)
    (h4 : m.worldBounds = some bd) (h5 : 0 < bd) (h6 : (bd : DistQ) < cap)
    (h7 : m.mtype = ModelType.DEFAULT) (h8 : 1 ≤ m.scale) :
    modelStep mask cap m =
      if posMinD ((modelTris m).map fun q => q * m.scale) < cap
      then some (m.nodeId, posMinD ((modelTris m).map fun q => q * m.scale))
      else none := by
  have hs0 : (0 : ℚ) < m.scale := lt_of_lt_of_le one_pos h8
  have hcap0 : (0 : DistQ) ≤ cap := by
    have : ((0 : ℚ) : DistQ) < (bd : DistQ) := WithTop.coe_lt_coe.mpr h5
    rw [WithTop.coe_zero] at this
    exact le_of_lt (lt_trans this h6)
  have hA : cap ≤ scaleDist cap m.scale := le_scaleDist cap m.scale hcap0 h8
  have hbd0 : ¬ bd ≤ 0 := not_le.mpr h5
  have hbdcap : ¬ cap ≤ (bd : DistQ) := not_le.mpr h6
  simp only [modelStep, modelDist, h1, h2, h4, h7, Bool.true_eq_false, if_false, if_neg h3,
    if_neg hbd0, if_neg hbdcap]
  set G := m.subModels.filterMap id with hG
  have hd : m.subModels.foldl (subStep cap m.scale) ⊤ =
      listMin (G.map fun g => scaleDist (narrowphase g.triDist g.ib g.pm cap) m.scale) := by
    rw [subFold, minTopL]
  have hval : ∀ g : SubMeshGeom,
      scaleDist (narrowphase g.triDist g.ib g.pm cap) m.scale =
        min (scaleDist cap m.scale) (posMinD ((triDists g).map fun q => q * m.scale)) := by
    intro g
    have hn : narrowphase g.triDist g.ib g.pm cap = min cap (posMinD (triDists g)) :=
      narrow_foldl (triDists g) cap
    rw [hn, scaleDist_min _ _ _ (le_of_lt hs0), scaleDist_posMinD m.scale hs0]
  have hP : posMinD ((modelTris m).map fun q => q * m.scale) =
      listMin (G.map fun g => posMinD ((triDists g).map fun q => q * m.scale)) := by
    rw [modelTris, ← hG, List.map_flatten, posMinD_flatten, List.map_map, List.map_map]
    rfl
  have hmaps : (G.map fun g => scaleDist (narrowphase g.triDist g.ib g.pm cap) m.scale) =
      ((G.map fun g => posMinD ((triDists g).map fun q => q * m.scale)).map
        fun p => min (scaleDist cap m.scale) p) := by
    rw [List.map_map]
    exact List.map_congr_left fun g _ => hval g
  have hfold := fold_min_cap (scaleDist cap m.scale) cap hA
    (G.map fun g => posMinD ((triDists g).map fun q => q * m.scale))
  rw [hd, hmaps, hP]
  by_cases hlt : listMin (G.map fun g => posMinD ((triDists g).map fun q => q * m.scale)) < cap
  · rw [if_pos ((hfold.1).mpr hlt), if_pos hlt, hfold.2 hlt]
  · rw [if_neg (fun hc => hlt ((hfold.1).mp hc)), if_neg hlt]

/-- C2 (amended): per iteration over the scene's model list at most one
result is recorded (the result list is the filterMap of the per-model step);
and for every enabled DEFAULT-type model that passes the layer-mask, bounds
and broad-phase tests and whose world-scale conversion factor along the ray
is at least 1, the recorded distance is the minimum over all the model's
sub-mesh triangles of the positive world-space intersection distances
(local distance times the scale factor), and a result is recorded exactly
when that minimum is strictly below the caller's max distance. -/
theorem raycastAllModels_nearest_hit (mask : Nat) (cap : DistQ) (ms : List Model)
    (m : Model)
    (h1 : m.hasTransform = true) (h2 : m.enabled = true)
    (h3 : ¬ m.nodeLayer &&& maskNoIR mask = 0) (bd : ℚ)
    (h4 : m.worldBounds = some bd) (h5 : 0 < bd) (h6 : (bd : DistQ) < cap)
    (h7 : m.mtype = ModelType.DEFAULT) (h8 : 1 ≤ m.scale) :
    raycastAllModels mask cap ms = ms.filterMap (modelStep mask cap) ∧
    modelStep mask cap m =
      if posMinD ((modelTris m).map fun q => q * m.scale) < cap
      then some (m.nodeId, posMinD ((modelTris m).map fun q => q * m.scale))
      else none :=
  ⟨rfl, modelStep_default_eq mask cap m h1 h2 h3 bd h4 h5 h6 h7 h8⟩

theorem raycastAllModels_nearest_hit_witness :
    modelStep DEFAULT_LAYER ((20 : ℚ) : DistQ) mWitnessA = some (1, ((2 : ℚ) : DistQ)) ∧
    modelStep DEFAULT_LAYER ((5 : ℚ) : DistQ) mWitnessB = none ∧
    modelStep DEFAULT_LAYER ((20 : ℚ) : DistQ) mWitnessB = some (2, ((10 : ℚ) : DistQ)) := by
  have hmtA : modelTris mWitnessA = [2, 5] := rfl
  have hmtB : modelTris mWitnessB = [10] := rfl
  have hmapA : ([2, 5] : List ℚ).map (fun q => q * mWitnessA.scale) = [2, 5] := by
    norm_num [mWitnessA]
  have hmapB : ([10] : List ℚ).map (fun q => q * mWitnessB.scale) = [10] := by
    norm_num [mWitnessB]
  have hA : posMinD ((modelTris mWitnessA).map fun q => q * mWitnessA.scale) =
      ((2 : ℚ) : DistQ) := by
    rw [hmtA, hmapA]
    decide
  have hB : posMinD ((modelTris mWitnessB).map fun q => q * mWitnessB.scale) =
      ((10 : ℚ) : DistQ) := by
    rw [hmtB, hmapB]
    decide
  refine ⟨?_, ?_, ?_⟩
  · rw [(raycastAllModels_nearest_hit DEFAULT_LAYER ((20 : ℚ) : DistQ) [] mWitnessA rfl rfl
      (by decide) 1 rfl (by norm_num) (by decide) rfl (by norm_num [mWitnessA])).2, hA,
      if_pos (by decide : ((2 : ℚ) : DistQ) < ((20 : ℚ) : DistQ))]
    rfl
  · rw [(raycastAllModels_nearest_hit DEFAULT_LAYER ((5 : ℚ) : DistQ) [] mWitnessB rfl rfl
      (by decide) 1 rfl (by norm_num) (by decide) rfl (by norm_num [mWitnessB])).2, hB,
      if_neg (by decide : ¬ ((10 : ℚ) : DistQ) < ((5 : ℚ) : DistQ))]
  · rw [(raycastAllModels_nearest_hit DEFAULT_LAYER ((20 : ℚ) : DistQ) [] mWitnessB rfl rfl
      (by decide) 1 rfl (by norm_num) (by decide) rfl (by norm_num [mWitnessB])).2, hB,
      if_pos (by decide : ((10 : ℚ) : DistQ) < ((20 : ℚ) : DistQ))]
    rfl

/-- C2 counterexample: with max distance 10, mPhantomA has no sub-mesh
triangle at all, yet raycastAllModels records a result for it, at distance
5 = cap times scale; so the claim as stated (a result only when the minimum
positive triangle distance is below the max) fails on the code. -/
theorem raycastAllModels_phantom_counterexample :
    raycastAllModels DEFAULT_LAYER ((10 : ℚ) : DistQ) [mPhantomA] =
      [(1, ((5 : ℚ) : DistQ))] ∧ modelTris mPhantomA = [] := by
  have hL : ¬ mPhantomA.nodeLayer &&& maskNoIR DEFAULT_LAYER = 0 := by decide
  have hd : modelDist ((10 : ℚ) : DistQ) mPhantomA 1 = ((5 : ℚ) : DistQ) := by
    have hsc : scaleDist ((10 : ℚ) : DistQ) mPhantomA.scale = ((5 : ℚ) : DistQ) := by
      rw [scaleDist, WithTop.map_coe]
      norm_num [mPhantomA]
    calc modelDist ((10 : ℚ) : DistQ) mPhantomA 1
        = min ⊤ (scaleDist ((10 : ℚ) : DistQ) mPhantomA.scale) := rfl
      _ = scaleDist ((10 : ℚ) : DistQ) mPhantomA.scale := minTopL _
      _ = ((5 : ℚ) : DistQ) := hsc
  have hstep : modelStep DEFAULT_LAYER ((10 : ℚ) : DistQ) mPhantomA =
      some (1, ((5 : ℚ) : DistQ)) := by
    have hT : mPhantomA.hasTransform = true := rfl
    have hE : mPhantomA.enabled = true := rfl
    have hW : mPhantomA.worldBounds = some 1 := rfl
    simp only [modelStep, hT, hE, hW, Bool.true_eq_false, if_false, if_neg hL,
      if_neg (by decide : ¬ (1 : ℚ) ≤ 0),
      if_neg (by decide : ¬ ((10 : ℚ) : DistQ) ≤ ((1 : ℚ) : DistQ)), hd,
      if_pos (by decide : ((5 : ℚ) : DistQ) < ((10 : ℚ) : DistQ))]
    rfl
  constructor
  · simp only [raycastAllModels, List.filterMap_cons, List.filterMap_nil, hstep]
  · rfl

/-- C4: evaluation at the failing input. With cap 10, no triangle of
mPhantomB qualifies (every rayTriangle distance is 0), the narrowphase best
is left at the initial cap as the claim says; but after the world-scale
conversion (cap times 1/2 = 5 < 10) a result IS recorded, contradicting the
no-hit signaling stated by the claim and by the source's own result
contract. -/
theorem narrowphase_cap_phantom_hit :
    narrowphase (fun _ _ _ => (0 : ℚ)) [0, 1, 2] PrimitiveMode.TRIANGLE_LIST
        ((10 : ℚ) : DistQ) = ((10 : ℚ) : DistQ) ∧
    ((modelTris mPhantomB).filter fun q => 0 < q) = [] ∧
    raycastAllModels DEFAULT_LAYER ((10 : ℚ) : DistQ) [mPhantomB] =
      [(2, ((5 : ℚ) : DistQ))] := by
  have hL : ¬ mPhantomB.nodeLayer &&& maskNoIR DEFAULT_LAYER = 0 := by decide
  have hnp : narrowphase (fun _ _ _ => (0 : ℚ)) [0, 1, 2] PrimitiveMode.TRIANGLE_LIST
      ((10 : ℚ) : DistQ) = ((10 : ℚ) : DistQ) := by decide
  have hd : modelDist ((10 : ℚ) : DistQ) mPhantomB 1 = ((5 : ℚ) : DistQ) := by
    have hsc : scaleDist ((10 : ℚ) : DistQ) mPhantomB.scale = ((5 : ℚ) : DistQ) := by
      rw [scaleDist, WithTop.map_coe]
      norm_num [mPhantomB]
    calc modelDist ((10 : ℚ) : DistQ) mPhantomB 1
        = min ⊤ (scaleDist (narrowphase (fun _ _ _ => (0 : ℚ)) [0, 1, 2]
            PrimitiveMode.TRIANGLE_LIST ((10 : ℚ) : DistQ)) mPhantomB.scale) := rfl
      _ = min ⊤ (scaleDist ((10 : ℚ) : DistQ) mPhantomB.scale) := by rw [hnp]
      _ = scaleDist ((10 : ℚ) : DistQ) mPhantomB.scale := minTopL _
      _ = ((5 : ℚ) : DistQ) := hsc
  have hstep : modelStep DEFAULT_LAYER ((10 : ℚ) : DistQ) mPhantomB =
      some (2, ((5 : ℚ) : DistQ)) := by
    have hT : mPhantomB.hasTransform = true := rfl
    have hE : mPhantomB.enabled = true := rfl
    have hW : mPhantomB.worldBounds = some 1 := rfl
    simp only [modelStep, hT, hE, hW, Bool.true_eq_false, if_false, if_neg hL,
      if_neg (by decide : ¬ (1 : ℚ) ≤ 0),
      if_neg (by decide : ¬ ((10 : ℚ) : DistQ) ≤ ((1 : ℚ) : DistQ)), hd,
      if_pos (by decide : ((5 : ℚ) : DistQ) < ((10 : ℚ) : DistQ))]
    rfl
  refine ⟨hnp, by decide, ?_⟩
  simp only [raycastAllModels, List.filterMap_cons, List.filterMap_nil, hstep]

/-- C10: a model of non-DEFAULT type that passes the transform/enabled/mask
filter and whose broad-phase rayAABB distance bd satisfies 0 < bd < cap has
a result recorded at exactly bd; the narrow phase never runs for it: the
record is the same whatever its sub-model list holds. -/
theorem raycastAllModels_non_default_broadphase (mask : Nat) (cap : DistQ) (m : Model)
    (h1 : m.hasTransform = true) (h2 : m.enabled = true)
    (h3 : ¬ m.nodeLayer &&& maskNoIR mask = 0) (bd : ℚ)
    (h4 : m.worldBounds = some bd) (h5 : 0 < bd) (h6 : (bd : DistQ) < cap)
    (h7 : m.mtype = ModelType.OTHER) :
    modelStep mask cap m = some (m.nodeId, (bd : DistQ)) ∧
    ∀ l, modelStep mask cap { m with subModels := l } = some (m.nodeId, (bd : DistQ)) := by
  have key : ∀ l, modelStep mask cap { m with subModels := l } =
      some (m.nodeId, (bd : DistQ)) := by
    intro l
    simp only [modelStep, modelDist, h1, h2, h4, h7, Bool.true_eq_false, if_false,
      if_neg h3, if_neg (not_le.mpr h5), if_neg (not_le.mpr h6), if_pos h6]
  exact ⟨key m.subModels, key⟩

theorem raycastAllModels_non_default_witness :
    modelStep DEFAULT_LAYER ((10 : ℚ) : DistQ) mOther = some (4, ((3 : ℚ) : DistQ)) :=
  (raycastAllModels_non_default_broadphase DEFAULT_LAYER ((10 : ℚ) : DistQ) mOther rfl rfl
    (by decide) 3 rfl (by norm_num) (by decide) rfl).1

theorem filterMap_cons_toList (f : α → Option β) (a : α) (l : List α) :
    List.filterMap f (a :: l) = (f a).toList ++ List.filterMap f l := by
  cases h : f a <;> simp [List.filterMap_cons, h]

mutual

theorem recNodeUI_eq (mask : Nat) (cap : DistQ) :
    (t : UITree) → recNodeUI mask cap t =
      (visitNodeUI t).filterMap (raycastUI2DNode mask cap)
  | .node n a cs => by
    rw [recNodeUI, visitNodeUI, filterMap_cons_toList]
    exact congrArg (fun x => (raycastUI2DNode mask cap n).toList ++ x)
      (recListUI_eq mask cap cs)

theorem recListUI_eq (mask : Nat) (cap : DistQ) :
    (ts : List UITree) → recListUI mask cap ts =
      (visitListUI ts).filterMap (raycastUI2DNode mask cap)
  | [] => rfl
  | t :: ts => by
    rw [recListUI, visitListUI, List.filterMap_append]
    cases ha : t.activeFlag
    · simp [ha, recListUI_eq mask cap ts]
    · simp [ha, recNodeUI_eq mask cap t, recListUI_eq mask cap ts]

end

theorem ui_node_excluded (mask : Nat) (cap : DistQ) (n : UINode)
    (h : n.layer &&& mask = 0 ∨ n.layer &&& IGNORE_RAYCAST ≠ 0) :
    raycastUI2DNode mask cap n = none := by
  have hcond : n.layer &&& IGNORE_RAYCAST ≠ 0 ∨ n.layer &&& mask = 0 := Or.symm h
  unfold raycastUI2DNode
  cases hui : n.uiTransform with
  | none => rfl
  | some d => simp [hcond]

theorem modelStep_nodeId (mask : Nat) (cap : DistQ) (x : Model) (p : Nat × DistQ)
    (h : modelStep mask cap x = some p) : p.1 = x.nodeId := by
  unfold modelStep at h
  by_cases h1 : x.hasTransform = false
  · rw [if_pos h1] at h; exact Option.noConfusion h
  rw [if_neg h1] at h
  by_cases h2 : x.enabled = false
  · rw [if_pos h2] at h; exact Option.noConfusion h
  rw [if_neg h2] at h
  by_cases h3 : x.nodeLayer &&& maskNoIR mask = 0
  · rw [if_pos h3] at h; exact Option.noConfusion h
  rw [if_neg h3] at h
  cases hb : x.worldBounds with
  | none =>
    simp only [hb] at h
    exact Option.noConfusion h
  | some bd =>
    simp only [hb] at h
    by_cases h4 : bd ≤ 0
    · rw [if_pos h4] at h; exact Option.noConfusion h
    rw [if_neg h4] at h
    by_cases h5 : cap ≤ (bd : DistQ)
    · rw [if_pos h5] at h; exact Option.noConfusion h
    rw [if_neg h5] at h
    by_cases h6 : modelDist cap x bd < cap
    · rw [if_pos h6] at h
      have h7 := Option.some.inj h
      rw [← h7]
    · rw [if_neg h6] at h; exact Option.noConfusion h

theorem uiStep_nodeId (mask : Nat) (cap : DistQ) (v : UINode) (p : Nat × DistQ)
    (h : raycastUI2DNode mask cap v = some p) : p.1 = v.nodeId := by
  unfold raycastUI2DNode at h
  cases hui : v.uiTransform with
  | none =>
    simp only [hui] at h
    exact Option.noConfusion h
  | some bd =>
    simp only [hui] at h
    by_cases h1 : v.layer &&& IGNORE_RAYCAST ≠ 0 ∨ v.layer &&& mask = 0
    · rw [if_pos h1] at h; exact Option.noConfusion h
    rw [if_neg h1] at h
    by_cases h2 : bd ≤ 0
    · rw [if_pos h2] at h; exact Option.noConfusion h
    rw [if_neg h2] at h
    by_cases h3 : (bd : DistQ) < cap
    · rw [if_pos h3] at h
      have h4 := Option.some.inj h
      rw [← h4]
    · rw [if_neg h3] at h; exact Option.noConfusion h

/-- C3 (amended): in raycastAllModels a model is excluded whenever its layer
shares no bit with the mask after the IGNORE_RAYCAST bit has been removed
from the mask; this covers a layer sharing no bit with the supplied mask and
a layer whose only overlap with the mask is the IGNORE_RAYCAST bit, but a
model whose layer carries IGNORE_RAYCAST together with another mask bit is
still tested (see the counterexample). For raycastAllCanvas the claim holds
as stated: a UI node missing the mask or carrying the IGNORE_RAYCAST bit is
never tested into the results. -/
theorem mask_exclusion (mask : Nat) (cap : DistQ) (m : Model) (n : UINode)
    (hm : m.nodeLayer &&& maskNoIR mask = 0)
    (hn : n.layer &&& mask = 0 ∨ n.layer &&& IGNORE_RAYCAST ≠ 0) :
    modelStep mask cap m = none ∧
    (∀ ms : List Model,
      (∀ x ∈ ms, x.nodeId = m.nodeId → x.nodeLayer &&& maskNoIR mask = 0) →
      ∀ d : DistQ, (m.nodeId, d) ∉ raycastAllModels mask cap ms) ∧
    raycastUI2DNode mask cap n = none ∧
    (∀ roots : List UITree,
      (∀ v ∈ visitListUI roots, v.nodeId = n.nodeId →
        v.layer &&& mask = 0 ∨ v.layer &&& IGNORE_RAYCAST ≠ 0) →
      ∀ d : DistQ, (n.nodeId, d) ∉ raycastAllCanvas mask cap roots) := by
  have hstep : ∀ x : Model, x.nodeLayer &&& maskNoIR mask = 0 →
      modelStep mask cap x = none := by
    intro x hx
    unfold modelStep
    cases hT : x.hasTransform
    · simp
    · cases hE : x.enabled
      · simp
      · simp [hx]
  refine ⟨hstep m hm, ?_, ui_node_excluded mask cap n hn, ?_⟩
  · intro ms hall d hmem
    rcases List.mem_filterMap.mp hmem with ⟨x, hx, hsome⟩
    have hid : m.nodeId = x.nodeId := modelStep_nodeId mask cap x _ hsome
    rw [hstep x (hall x hx hid.symm)] at hsome
    exact Option.noConfusion hsome
  · intro roots hall d hmem
    rw [raycastAllCanvas, recListUI_eq] at hmem
    rcases List.mem_filterMap.mp hmem with ⟨v, hv, hsome⟩
    have hid : n.nodeId = v.nodeId := uiStep_nodeId mask cap v _ hsome
    rw [ui_node_excluded mask cap v (hall v hv hid.symm)] at hsome
    exact Option.noConfusion hsome

theorem mask_exclusion_witness :
    modelStep DEFAULT_LAYER ((10 : ℚ) : DistQ)
        { mOther with nodeLayer := UI_2D_LAYER } = none ∧
    raycastUI2DNode DEFAULT_LAYER ((10 : ℚ) : DistQ)
        { nodeId := 9, layer := IGNORE_RAYCAST, uiTransform := some 1 } = none := by
  have h := mask_exclusion DEFAULT_LAYER ((10 : ℚ) : DistQ)
    { mOther with nodeLayer := UI_2D_LAYER }
    { nodeId := 9, layer := IGNORE_RAYCAST, uiTransform := some 1 }
    (by decide) (Or.inr (by decide))
  exact ⟨h.1, h.2.2.1⟩

/-- C3 counterexample: mCarriesIR carries the IGNORE_RAYCAST bit in its
layer, yet raycastAllModels records it under the default mask, because the
source clears the bit from the mask rather than from the model's layer. -/
theorem mask_exclusion_counterexample :
    mCarriesIR.nodeLayer &&& IGNORE_RAYCAST ≠ 0 ∧
    raycastAllModels DEFAULT_LAYER ((10 : ℚ) : DistQ) [mCarriesIR] =
      [(3, ((3 : ℚ) : DistQ))] := by
  exact ⟨by decide, by decide⟩

/-- C9 (amended): a null model argument logs the diagnostic in development
(PREVIEW) builds only, and then the unconditional model.transform property
access throws a TypeError: the call never reaches the bounds check, returns
no boolean, and records no result. -/
theorem raycastSingleModel_null (preview : Bool) (mask : Nat) (cap : DistQ) :
    raycastSingleModel preview mask cap none =
      ((if preview then [nullModelMsg] else []), Except.error ()) := by
  cases preview <;> rfl

/-- C9 counterexample: with a null model the call throws (the dereference of
null), rather than proceeding to the bounds check and returning false. -/
theorem raycastSingleModel_null_throws :
    (raycastSingleModel true DEFAULT_LAYER ((10 : ℚ) : DistQ) none).2 =
      Except.error () ∧
    (raycastSingleModel true DEFAULT_LAYER ((10 : ℚ) : DistQ) none).1 =
      [nullModelMsg] ∧
    (raycastSingleModel false DEFAULT_LAYER ((10 : ℚ) : DistQ) none).1 = [] := by
  exact ⟨rfl, rfl, rfl⟩

namespace Sync

theorem map_eraseIdx (f : Entity → Nat) : ∀ (l : List Entity) (i : Nat),
    (l.eraseIdx i).map f = (l.map f).eraseIdx i
  | [], _ => by simp [List.eraseIdx]
  | _ :: _, 0 => rfl
  | a :: l, i + 1 => by
    simp [List.eraseIdx_cons_succ, map_eraseIdx f l i]

theorem applyOp_inSync (s : SceneLists) (op : Op) (h : inSync s) : inSync (applyOp s op) := by
  obtain ⟨hm, hsp, hst⟩ := h
  cases op with
  | addModel m =>
    refine ⟨?_, hsp, hst⟩
    show s.modelArr ++ [m.handle] = (s.models ++ [m]).map Entity.handle
    simp [hm]
  | removeModel m =>
    show inSync (removeModel s m)
    unfold removeModel
    cases hidx : s.models.findIdx? (fun x => x == m) with
    | none => exact ⟨hm, hsp, hst⟩
    | some i =>
      refine ⟨?_, hsp, hst⟩
      show s.modelArr.eraseIdx i = (s.models.eraseIdx i).map Entity.handle
      rw [hm, map_eraseIdx]
  | addSphereLight l =>
    refine ⟨hm, ?_, hst⟩
    show s.sphereArr ++ [l.handle] = (s.sphereLights ++ [l]).map Entity.handle
    simp [hsp]
  | removeSphereLight l =>
    show inSync (removeSphereLight s l)
    unfold removeSphereLight
    cases hidx : s.sphereLights.findIdx? (fun x => x == l) with
    | none => exact ⟨hm, hsp, hst⟩
    | some i =>
      refine ⟨hm, ?_, hst⟩
      show s.sphereArr.eraseIdx i = (s.sphereLights.eraseIdx i).map Entity.handle
      rw [hsp, map_eraseIdx]
  | addSpotLight l =>
    refine ⟨hm, hsp, ?_⟩
    show s.spotArr ++ [l.handle] = (s.spotLights ++ [l]).map Entity.handle
    simp [hst]
  | removeSpotLight l =>
    show inSync (removeSpotLight s l)
    unfold removeSpotLight
    cases hidx : s.spotLights.findIdx? (fun x => x == l) with
    | none => exact ⟨hm, hsp, hst⟩
    | some i =>
      refine ⟨hm, hsp, ?_⟩
      show s.spotArr.eraseIdx i = (s.spotLights.eraseIdx i).map Entity.handle
      rw [hst, map_eraseIdx]

theorem applyOps_inSync : ∀ (ops : List Op) (s : SceneLists),
    inSync s → inSync (applyOps s ops)
  | [], _, h => h
  | op :: ops, s, h => applyOps_inSync ops _ (applyOp_inSync s op h)

/-- C1: starting from the empty scene, any sequence of addModel/removeModel,
addSphereLight/removeSphereLight and addSpotLight/removeSpotLight calls keeps
each packed array equal to the handle image of its logical list (same logical
length, and the packed entry at every index is the handle of the entity at
that index); in particular addModel A; addModel B; removeModel A leaves the
logical list at [B] and the packed array holding exactly B's handle. -/
theorem packed_arrays_lockstep :
    (∀ ops : List Op, inSync (applyOps emptyScene ops)) ∧
    (∀ A B : Entity,
      applyOps emptyScene [Op.addModel A, Op.addModel B, Op.removeModel A] =
        { emptyScene with models := [B], modelArr := [B.handle] }) := by
  constructor
  · intro ops
    exact applyOps_inSync ops emptyScene ⟨rfl, rfl, rfl⟩
  · intro A B
    simp only [applyOps, List.foldl_cons, List.foldl_nil, applyOp]
    unfold addModel removeModel emptyScene
    simp [List.findIdx?_cons]

end Sync

namespace DL

theorem mem_removeFirst {α : Type} (p : α → Bool) : ∀ (l : List α) (y : α),
    y ∈ l → p y = false → y ∈ removeFirst p l
  | [], y, hy, _ => absurd hy (List.not_mem_nil y)
  | x :: xs, y, hy, hp => by
    unfold removeFirst
    cases hx : p x with
    | true =>
      rw [if_pos rfl]
      rcases List.mem_cons.mp hy with h | h
      · subst h
        rw [hp] at hx
        exact absurd hx (by simp)
      · exact h
    | false =>
      rw [if_neg (by simp)]
      rcases List.mem_cons.mp hy with h | h
      · subst h
        exact List.mem_cons_self _ _
      · exact List.mem_cons_of_mem x (mem_removeFirst p xs y h hp)

theorem mainLightOk_step (s : DLState) (op : DLOp) (h : mainLightOk s = true)
    (hok : okOp s op = true) : mainLightOk (applyDLOp s op) = true := by
  cases op with
  | set dl =>
    show mainLightOk { s with mainLight := some dl.lid } = true
    simp only [mainLightOk]
    exact hok
  | add dl =>
    show mainLightOk { s with directionalLights := s.directionalLights ++ [dl] } = true
    cases hml : s.mainLight with
    | none => simp [mainLightOk, hml]
    | some i =>
      simp only [mainLightOk, hml] at h ⊢
      simp [List.any_append, h]
  | unset dl =>
    show mainLightOk (unsetMainLight s dl) = true
    unfold unsetMainLight
    by_cases hm : s.mainLight = some dl.lid
    · rw [if_pos hm]
      by_cases hlen : s.directionalLights.length ≠ 0
      · rw [if_pos hlen]
        simp only [mainLightOk]
        rw [List.any_eq_true]
        have hn : s.directionalLights.length - 1 < s.directionalLights.length := by omega
        refine ⟨markDirty (s.directionalLights.getD (s.directionalLights.length - 1) ⟨0, none⟩),
          ?_, ?_⟩
        · exact List.mem_set s.directionalLights (s.directionalLights.length - 1) hn _
        · simp [markDirty]
      · rw [if_neg hlen]
        rfl
    · rw [if_neg hm]
      exact h
  | remove dl =>
    show mainLightOk { s with
        directionalLights := removeFirst (fun x => x == dl) s.directionalLights } = true
    have hok2 : (s.mainLight == some dl.lid) = false := by
      have hok1 : (!(s.mainLight == some dl.lid)) = true := hok
      simpa using hok1
    have hne0 : s.mainLight ≠ some dl.lid := by
      intro hc
      rw [hc] at hok2
      simp at hok2
    cases hml : s.mainLight with
    | none => simp [mainLightOk, hml]
    | some i =>
      simp only [mainLightOk, hml] at h ⊢
      rw [List.any_eq_true] at h ⊢
      rcases h with ⟨x, hx, hxe⟩
      have hxi : x.lid = i := by simpa using hxe
      have hidl : i ≠ dl.lid := by
        intro hc
        exact hne0 (by rw [hml, hc])
      have hne : (x == dl) = false := by
        rw [beq_eq_false_iff_ne]
        intro hc
        exact hidl (by rw [← hxi, hc])
      exact ⟨x, mem_removeFirst _ _ _ hx hne, hxe⟩

/-- C6 (amended): the main-light invariant (mainLight is null or aliases an
element currently in the directional-light list) holds after any call
sequence in which setMainLight is only given a light currently in the list
and removeDirectionalLight is never applied to the current main light. The
source itself does not enforce either condition, see the counterexample. -/
theorem mainLight_invariant : ∀ (ops : List DLOp) (s : DLState),
    mainLightOk s = true → okOps s ops = true →
    mainLightOk (applyDLOps s ops) = true
  | [], _, h, _ => h
  | op :: ops, s, h, hok => by
    rw [okOps, Bool.and_eq_true] at hok
    exact mainLight_invariant ops _ (mainLightOk_step s op h hok.1) hok.2

theorem mainLight_invariant_witness :
    mainLightOk (applyDLOps ⟨[], none⟩
      [DLOp.add ⟨1, none⟩, DLOp.add ⟨2, none⟩, DLOp.set ⟨2, none⟩,
       DLOp.unset ⟨2, none⟩, DLOp.remove ⟨1, none⟩]) = true :=
  mainLight_invariant
    [DLOp.add ⟨1, none⟩, DLOp.add ⟨2, none⟩, DLOp.set ⟨2, none⟩,
     DLOp.unset ⟨2, none⟩, DLOp.remove ⟨1, none⟩]
    ⟨[], none⟩ (by decide) (by decide)

/-- C6 counterexample: after addDirectionalLight L; setMainLight L;
removeDirectionalLight L the directional-light list is empty while mainLight
still aliases L, so the invariant fails for an unrestricted call sequence. -/
theorem mainLight_invariant_counterexample :
    mainLightOk (applyDLOps ⟨[], none⟩
      [DLOp.add ⟨5, none⟩, DLOp.set ⟨5, none⟩, DLOp.remove ⟨5, none⟩]) = false := by
  decide

/-- C7 (amended): unsetMainLight leaves the state unchanged when dl is not
the current main light; when dl is the main light it falls back to the last
entry of the current directional-light list, marking that entry's node
rotation-dirty (when the list still contains dl as its last element the main
light therefore remains dl itself, not the earlier light), and falls back to
null when the list is empty. -/
theorem unsetMainLight_fallback (s : DLState) (dl : DirLight) :
    (s.mainLight ≠ some dl.lid → unsetMainLight s dl = s) ∧
    (s.mainLight = some dl.lid → s.directionalLights = [] →
      unsetMainLight s dl = { s with mainLight := none }) ∧
    (s.mainLight = some dl.lid → s.directionalLights ≠ [] →
      unsetMainLight s dl =
        { directionalLights :=
            s.directionalLights.set (s.directionalLights.length - 1)
              (markDirty
                (s.directionalLights.getD (s.directionalLights.length - 1) ⟨0, none⟩)),
          mainLight :=
            some ((s.directionalLights.getD
              (s.directionalLights.length - 1) ⟨0, none⟩).lid) }) := by
  refine ⟨?_, ?_, ?_⟩
  · intro hm
    unfold unsetMainLight
    rw [if_neg hm]
  · intro hm hnil
    unfold unsetMainLight
    rw [if_pos hm, if_neg (by simp [hnil])]
  · intro hm hnil
    unfold unsetMainLight
    rw [if_pos hm, if_pos (fun hc => hnil (List.length_eq_zero.mp hc))]

theorem unsetMainLight_fallback_witness :
    unsetMainLight ⟨[⟨1, none⟩, ⟨2, none⟩], some 2⟩ ⟨2, none⟩ =
      ⟨[⟨1, none⟩, markDirty ⟨2, none⟩], some 2⟩ := by
  have h := (unsetMainLight_fallback ⟨[⟨1, none⟩, ⟨2, none⟩], some 2⟩ ⟨2, none⟩).2.2
    rfl (by decide)
  rw [h]
  decide

/-- C7 counterexample: with directional lights [L1, L2] (ids 1 and 2) and
mainLight = L2, unsetMainLight(L2) leaves mainLight aliasing L2 (the last
list entry is L2 itself); it does not become L1 as the claim states. -/
theorem unsetMainLight_fallback_counterexample :
    (unsetMainLight ⟨[⟨1, none⟩, ⟨2, none⟩], some 2⟩ ⟨2, none⟩).mainLight = some 2 ∧
    some (2 : Nat) ≠ some (1 : Nat) := by
  exact ⟨by decide, by decide⟩

end DL

namespace Destroy

/-- C8 (amended): destroy empties the camera, sphere-light, spot-light and
model lists and detaches exactly those entities in source order; the
directional-light list is left untouched (no removal call exists for it in
the source); all four handles are nulled and each previously non-null handle
is freed exactly once, in source order, under the null-handle guard; and
destroy is idempotent: a second call changes nothing. -/
theorem destroy_contract (s : SceneRes) :
    (destroy s).cameras = [] ∧
    (destroy s).sphereLights = [] ∧
    (destroy s).spotLights = [] ∧
    (destroy s).models = [] ∧
    (destroy s).directionalLights = s.directionalLights ∧
    (destroy s).detached =
      s.detached ++ s.cameras ++ s.sphereLights ++ s.spotLights ++ s.models ∧
    (destroy s).modelArrayHandle = 0 ∧
    (destroy s).scenePoolHandle = 0 ∧
    (destroy s).sphereLightsHandle = 0 ∧
    (destroy s).spotLightsHandle = 0 ∧
    (destroy s).freed = s.freed ++
      ([s.modelArrayHandle, s.scenePoolHandle, s.sphereLightsHandle,
        s.spotLightsHandle].filter fun h => h ≠ 0) ∧
    destroy (destroy s) = destroy s := by
  refine ⟨rfl, rfl, rfl, rfl, rfl, rfl, rfl, rfl, rfl, rfl, ?_, ?_⟩
  · show freeLog s.spotLightsHandle (freeLog s.sphereLightsHandle
      (freeLog s.scenePoolHandle (freeLog s.modelArrayHandle s.freed))) = _
    by_cases h1 : s.modelArrayHandle = 0 <;> by_cases h2 : s.scenePoolHandle = 0 <;>
      by_cases h3 : s.sphereLightsHandle = 0 <;> by_cases h4 : s.spotLightsHandle = 0 <;>
      simp [freeLog, h1, h2, h3, h4, List.filter_cons]
  · simp [destroy, removeCameras, removeSphereLights, removeSpotLights, removeModels,
      freeLog]

/-- C8 counterexample: a scene owning one directional light (id 7): destroy
leaves it in the directional-light list and its detach log stays empty, so
destroy does not detach every owned entity as the claim states. -/
theorem destroy_counterexample :
    (destroy ⟨[], [7], [], [], [], 1, 2, 3, 4, [], []⟩).directionalLights = [7] ∧
    (destroy ⟨[], [7], [], [], [], 1, 2, 3, 4, [], []⟩).detached = [] := by
  exact ⟨rfl, rfl⟩

end Destroy
